import Mathlib

/-!
Verification of the forge coverage command (cli/src/cmd/forge/coverage.rs).

The file under verification is the orchestration layer of coverage
collection: building the project with the optimizer disabled, preparing
the coverage map and the per-artifact source-map table, running the test
suite on a separate thread, correlating per-address hit maps through
source maps into the coverage map, and dispatching the selected reporter.

The central coverage data types (CoverageMap, the AST visitor, the
reporters) live in the forge::coverage crate, outside the file at hand;
those are modelled from the specification, each such definition carrying
a doc comment starting with the words Modelled from the spec. Everything
else is translated directly from coverage.rs.
-/

namespace ForgeCoverage

/-- an artifact identity: contract name plus compiler version, the join
key used by the source-map table and the hit correlator. -/
structure ArtifactId where
  name : String
  version : String
deriving DecidableEq

/-- one decoded source map entry: bytecode instruction offsets in the
half-open range [lo, hi) map to the source byte range [srcLo, srcHi). -/
structure SourceMapEntry where
  lo : Nat
  hi : Nat
  srcLo : Nat
  srcHi : Nat
deriving DecidableEq

/-- a decoded source map: an ordered sequence of entries for one
compiled bytecode object. -/
abbrev SourceMap := List SourceMapEntry

/-- a coverage item: a source byte range [lo, hi) together with its
accumulated hit counter. -/
structure CoverageItem where
  lo : Nat
  hi : Nat
  hits : Nat
deriving DecidableEq

/-- Modelled from the spec: a HitMap value for one contract address maps
instruction offset to execution count; it is given as the finite list of
observed offsets together with the count function on offsets. -/
structure HitData where
  offsets : List Nat
  counts : Nat → Nat

/-- whether a source map entry covers the given instruction offset. -/
def entryCovers (e : SourceMapEntry) (o : Nat) : Bool :=
  decide (e.lo ≤ o) && decide (o < e.hi)

/-- locate the source map entry whose offset range contains the given
instruction offset. -/
def findEntry (sm : SourceMap) (o : Nat) : Option SourceMapEntry :=
  sm.find? (fun e => entryCovers e o)

/-- whether the byte range of a coverage item contains the source range
of a source map entry. -/
def itemCovers (it : CoverageItem) (e : SourceMapEntry) : Bool :=
  decide (it.lo ≤ e.srcLo) && decide (e.srcHi ≤ it.hi)

/-- whether the given instruction offset, mapped through the source map,
lands inside the byte range of the given coverage item. -/
def matchesItem (sm : SourceMap) (it : CoverageItem) (o : Nat) : Bool :=
  match findEntry sm o with
  | some e => itemCovers it e
  | none => false

/-- Modelled from the spec: one step of the hit correlator of section
4.3 — locate the entry covering the offset; if none covers it, or no
item covers the mapped source range, skip; otherwise add the count to
each covering item. -/
def applyOffset (sm : SourceMap) (o c : Nat) (items : List CoverageItem) :
    List CoverageItem :=
  match findEntry sm o with
  | none => items
  | some e =>
      items.map (fun it =>
        if itemCovers it e then { it with hits := it.hits + c } else it)

/-- Modelled from the spec: the hit correlator of section 4.3 at the
level of one item list — for each observed offset, add its count to
every item resolved through the source map. -/
def addHits (sm : SourceMap) (H : HitData) (items : List CoverageItem) :
    List CoverageItem :=
  H.offsets.foldl (fun its o => applyOffset sm o (H.counts o) its) items

/-- the total count a hit map contributes to one coverage item through a
source map: the sum, over observed offsets matching the item, of the
counts. -/
def contrib (sm : SourceMap) (H : HitData) (it : CoverageItem) : Nat :=
  (H.offsets.map (fun o => if matchesItem sm it o then H.counts o else 0)).sum

/-- the coverage map: the central store, keyed by compiler version and
source path, holding the coverage items of each registered source. -/
structure CoverageMap where
  entries : List ((String × String) × List CoverageItem)

/-- whether the coverage map holds an entry under the given compiler
version and source path. -/
def CoverageMap.hasKey (m : CoverageMap) (version path : String) : Bool :=
  m.entries.any (fun e => e.1.1 == version && e.1.2 == path)

/-- Modelled from the spec: register_source of section 4.2 — insert a
source entry under (version, path) if absent; idempotent per key. -/
def CoverageMap.add_source (m : CoverageMap) (path version : String)
    (items : List CoverageItem) : CoverageMap :=
  if m.hasKey version path then m
  else { entries := m.entries ++ [((version, path), items)] }

/-- Modelled from the spec: merge_hits / add_hit_map of sections 4.2 and
4.3 — correlate a per-address hit map through one source map into every
source entry registered under the given compiler version; entries under
other versions are untouched and no entry is added or removed. -/
def CoverageMap.add_hit_map (m : CoverageMap) (version : String)
    (sm : SourceMap) (H : HitData) : CoverageMap :=
  { entries := m.entries.map (fun e =>
      if e.1.1 = version then (e.1, addHits sm H e.2) else e) }

/-- a bytecode object as it appears in a compact contract artifact: its
source map field is absent, or present and either decoded or a decode
error, mirroring Option of Result in the artifact types. -/
structure Bytecode where
  source_map : Option (Except String SourceMap)

/-- the deployed (runtime) bytecode wrapper of a compact contract
artifact; its inner bytecode object may be absent. -/
structure DeployedBytecode where
  bytecode : Option Bytecode

/-- a compact contract artifact: the creation source map accessor and
the deployed bytecode wrapper, as read by prepare. -/
structure CompactContractBytecode where
  source_map : Option (Except String SourceMap)
  deployed_bytecode : Option DeployedBytecode

/-- the Option chain of prepare (coverage.rs lines 129 to 143): an
artifact yields a (creation, runtime) source map pair exactly when the
creation source map is present and decodes, the deployed bytecode and
its inner bytecode are present, and the runtime source map is present
and decodes; any gap yields none. -/
def sourceMapsOf (a : CompactContractBytecode) :
    Option (SourceMap × SourceMap) := do
  let c ← a.source_map
  let c ← c.toOption
  let d ← a.deployed_bytecode
  let b ← d.bytecode
  let r ← b.source_map
  let r ← r.toOption
  pure (c, r)

/-- the source-map table of prepare: the filter_map over artifacts
keeping those with both source maps (coverage.rs lines 125 to 144). -/
def buildSourceMaps (artifacts : List (ArtifactId × CompactContractBytecode)) :
    List (ArtifactId × (SourceMap × SourceMap)) :=
  artifacts.filterMap (fun p => (sourceMapsOf p.2).map (fun sms => (p.1, sms)))

/-- lookup of an artifact identity in the source-map table, mirroring
source_maps.get in collect. -/
def lookupSM (sms : List (ArtifactId × (SourceMap × SourceMap)))
    (aid : ArtifactId) : Option (SourceMap × SourceMap) :=
  (sms.find? (fun p => decide (p.1 = aid))).map (fun p => p.2)

/-- a source file as it appears in the compile output: it may carry a
parsed AST (polymorphic here, since the AST shape is external). -/
structure SourceFile (A : Type) where
  ast : Option A

/-- one versioned source file: a compiler version together with the
source file. -/
structure VersionedSourceFile (A : Type) where
  version : String
  source_file : SourceFile A

/-- the inner loop of prepare over the versioned sources of one path
(coverage.rs lines 148 to 160): take the AST if present, run the
visitor (which may fail), drop the source when the visitor yields zero
items, otherwise register the source under (version, path). The visitor
is a parameter since the forge::coverage Visitor is external. -/
def prepareVersioned {A : Type}
    (visit : A → Except String (List CoverageItem)) (path : String) :
    List (VersionedSourceFile A) → CoverageMap → Except String CoverageMap
  | [], m => .ok m
  | vs :: rest, m =>
      match vs.source_file.ast with
      | none => prepareVersioned visit path rest m
      | some a =>
          match visit a with
          | .error e => .error e
          | .ok items =>
              if items.isEmpty then prepareVersioned visit path rest m
              else prepareVersioned visit path rest (m.add_source path vs.version items)

/-- the outer loop of prepare over all source paths (coverage.rs lines
147 to 161). -/
def prepareSources {A : Type}
    (visit : A → Except String (List CoverageItem)) :
    List (String × List (VersionedSourceFile A)) → CoverageMap →
    Except String CoverageMap
  | [], m => .ok m
  | (path, vss) :: rest, m =>
      match prepareVersioned visit path vss m with
      | .error e => .error e
      | .ok m => prepareSources visit rest m

/-- prepare (coverage.rs lines 118 to 164): build the source-map table
from the artifacts and the coverage map from the sources, starting from
the empty map. -/
def prepare {A : Type} (visit : A → Except String (List CoverageItem))
    (artifacts : List (ArtifactId × CompactContractBytecode))
    (sources : List (String × List (VersionedSourceFile A))) :
    Except String (CoverageMap × List (ArtifactId × (SourceMap × SourceMap))) :=
  let source_maps := buildSourceMaps artifacts
  match prepareSources visit sources { entries := [] } with
  | .error e => .error e
  | .ok m => .ok (m, source_maps)

/-- Modelled from the spec: the address resolution collaborator of
section 6 returns, per address observed in a trace, an identity holding
the address and an optional resolved artifact identity. -/
structure Identity where
  address : Nat
  artifact_id : Option ArtifactId

/-- Modelled from the spec: a trace is represented by the list of
identity values the external trace identifier returns for the addresses
it observes. -/
abbrev Trace := List Identity

/-- a per-test HitMap: contract address to per-address hit data, as
looked up by hit_map.get in collect. -/
abbrev HitMap := List (Nat × HitData)

/-- lookup of an address in a per-test HitMap. -/
def lookupHM (hm : HitMap) (addr : Nat) : Option HitData :=
  (hm.find? (fun p => p.1 == addr)).map (fun p => p.2)

/-- the filter_map body of collect (coverage.rs lines 211 to 216): an
identity resolves when it carries an artifact id, the id is in the
source-map table, and the address is in the HitMap; any gap yields
none. -/
def resolveIdentity (sms : List (ArtifactId × (SourceMap × SourceMap)))
    (hm : HitMap) (ident : Identity) :
    Option (ArtifactId × ((SourceMap × SourceMap) × HitData)) :=
  match ident.artifact_id with
  | none => none
  | some artifact_id =>
      match lookupSM sms artifact_id with
      | none => none
      | some source_map =>
          match lookupHM hm ident.address with
          | none => none
          | some hits => some (artifact_id, (source_map, hits))

/-- the per-trace step of collect (coverage.rs lines 207 to 221):
resolve the identities of the trace and, for each resolved one, apply
the hits first through the creation source map and then through the
runtime source map. -/
def processTrace (sms : List (ArtifactId × (SourceMap × SourceMap)))
    (hm : HitMap) (tr : Trace) (m : CoverageMap) : CoverageMap :=
  (tr.filterMap (resolveIdentity sms hm)).foldl
    (fun m r =>
      (m.add_hit_map r.1.version r.2.1.1 r.2.2).add_hit_map
        r.1.version r.2.1.2 r.2.2) m

/-- one test result as consumed by the collect loop: an optional
per-test HitMap and the list of traces. -/
structure TestResult where
  coverage : Option HitMap
  traces : List Trace

/-- the per-result step of collect (coverage.rs lines 205 to 224): when
the result carries a HitMap, process every trace against it; otherwise
leave the map untouched. -/
def processResult (sms : List (ArtifactId × (SourceMap × SourceMap)))
    (res : TestResult) (m : CoverageMap) : CoverageMap :=
  match res.coverage with
  | none => m
  | some hm => res.traces.foldl (fun m tr => processTrace sms hm tr m) m

/-- the collect loop over all received test results. -/
def collectResults (sms : List (ArtifactId × (SourceMap × SourceMap)))
    (results : List TestResult) (m : CoverageMap) : CoverageMap :=
  results.foldl (fun m r => processResult sms r m) m

/-- the outcome of the spawned test-execution thread as seen by join:
it ran to completion, or it panicked. -/
inductive JoinOutcome where
  | finished
  | panicked
deriving DecidableEq

/-- the report kinds of the command (coverage.rs lines 252 to 257). -/
inductive CoverageReportKind where
  | summary
  | lcov
  | debug
deriving DecidableEq

/-- where a reporter sends its rendered output. -/
inductive ReportTarget where
  | stdout
  | file (path : String)
deriving DecidableEq

/-- the tail of collect (coverage.rs lines 226 to 247): the join
outcome of the test thread is bound to a wildcard and discarded, then
the selected reporter runs. The summary and debug reporters write to
the standard output stream — Modelled from the spec, since the reporter
internals are external — while the lcov branch creates the file
lcov.info at the project root through the given filesystem operation,
propagating a creation failure. The result carries the report target
together with the list of files created. -/
def collectFinish (join : JoinOutcome) (report : CoverageReportKind)
    (root : String) (create : String → Except String Unit) :
    Except String (ReportTarget × List String) :=
  match join, report with
  | _, .summary => .ok (.stdout, [])
  | _, .lcov =>
      match create (root ++ "/lcov.info") with
      | .error e => .error e
      | .ok _ => .ok (.file (root ++ "/lcov.info"), [root ++ "/lcov.info"])
  | _, .debug => .ok (.stdout, [])

/-- the solc optimizer settings as carried by the project
configuration. -/
structure Optimizer where
  enabled : Option Bool
  runs : Option Nat
deriving DecidableEq

/-- Modelled from the spec: Optimizer.disable of the external solc
artifact types — disabling the optimizer sets enabled to false. -/
def Optimizer.disable (o : Optimizer) : Optimizer :=
  { o with enabled := some false }

/-- the compiler settings of a project, as far as build touches them. -/
structure Settings where
  optimizer : Optimizer
deriving DecidableEq

/-- the solc configuration of a project. -/
structure SolcConfig where
  settings : Settings
deriving DecidableEq

/-- a project: its solc configuration and its root path. -/
structure Project where
  solc_config : SolcConfig
  root : String
deriving DecidableEq

/-- the adjustment build applies to the freshly created project before
compiling: disable the optimizer in the solc settings (coverage.rs line
105). -/
def disableOptimizer (p : Project) : Project :=
  { p with
    solc_config :=
      { p.solc_config with
        settings :=
          { p.solc_config.settings with
            optimizer := p.solc_config.settings.optimizer.disable } } }

/-- build (coverage.rs lines 99 to 115): set up the project from the
configuration, disable the optimizer in its settings, then compile the
adjusted project; project creation and compilation are external and
passed as parameters, and either failure propagates. -/
def build {C O : Type} (mkProject : C → Except String Project)
    (compile : Project → Except String O) (config : C) :
    Except String (Project × O) :=
  match mkProject config with
  | .error e => .error e
  | .ok project =>
      match compile (disableOptimizer project) with
      | .error e => .error e
      | .ok output => .ok (disableOptimizer project, output)

/-! Helper lemmas about the hit correlator. -/

theorem matchesItem_set_hits (sm : SourceMap) (it : CoverageItem) (x o : Nat) :
    matchesItem sm { it with hits := x } o = matchesItem sm it o := rfl

theorem contrib_set_hits (sm : SourceMap) (H : HitData) (it : CoverageItem)
    (x : Nat) : contrib sm H { it with hits := x } = contrib sm H it := rfl

theorem contrib_cons (sm : SourceMap) (o : Nat) (os : List Nat) (c : Nat → Nat)
    (it : CoverageItem) :
    contrib sm ⟨o :: os, c⟩ it =
      (if matchesItem sm it o then c o else 0) + contrib sm ⟨os, c⟩ it := by
  simp [contrib]

theorem applyOffset_closed (sm : SourceMap) (o c : Nat)
    (items : List CoverageItem) :
    applyOffset sm o c items = items.map (fun it =>
      if matchesItem sm it o then { it with hits := it.hits + c } else it) := by
  unfold applyOffset
  cases h : findEntry sm o with
  | none =>
      simp only [matchesItem, h]
      simp
  | some e =>
      simp only [matchesItem, h]

theorem addHits_closed (sm : SourceMap) (os : List Nat) (c : Nat → Nat)
    (items : List CoverageItem) :
    addHits sm ⟨os, c⟩ items = items.map (fun it =>
      { it with hits := it.hits + contrib sm ⟨os, c⟩ it }) := by
  induction os generalizing items with
  | nil =>
      simp [addHits, contrib]
  | cons o os ih =>
      have h1 : addHits sm ⟨o :: os, c⟩ items
          = addHits sm ⟨os, c⟩ (applyOffset sm o (c o) items) := rfl
      rw [h1, ih, applyOffset_closed, List.map_map]
      apply List.map_congr_left
      intro it _
      cases it with
  | mk lo hi h =>
      by_cases hm : matchesItem sm ⟨lo, hi, h⟩ o
      · simp only [Function.comp_apply, if_pos hm, contrib_cons, if_pos hm]
        show CoverageItem.mk lo hi ((h + c o) + contrib sm ⟨os, c⟩ ⟨lo, hi, h⟩)
            = CoverageItem.mk lo hi (h + (c o + contrib sm ⟨os, c⟩ ⟨lo, hi, h⟩))
        rw [Nat.add_assoc]
      · simp only [Function.comp_apply, if_neg hm, contrib_cons, if_neg hm]
        rw [Nat.zero_add]

theorem contrib_addc (sm : SourceMap) (os : List Nat) (c1 c2 : Nat → Nat)
    (it : CoverageItem) :
    contrib sm ⟨os, fun o => c1 o + c2 o⟩ it =
      contrib sm ⟨os, c1⟩ it + contrib sm ⟨os, c2⟩ it := by
  unfold contrib
  rw [← List.sum_map_add]
  apply congrArg
  apply List.map_congr_left
  intro o _
  by_cases hm : matchesItem sm it o <;> simp [hm]

theorem addHits_add (sm : SourceMap) (os : List Nat) (c1 c2 : Nat → Nat)
    (items : List CoverageItem) :
    addHits sm ⟨os, c2⟩ (addHits sm ⟨os, c1⟩ items) =
      addHits sm ⟨os, fun o => c1 o + c2 o⟩ items := by
  rw [addHits_closed, addHits_closed, addHits_closed, List.map_map]
  apply List.map_congr_left
  intro it _
  cases it with
  | mk lo hi h =>
      show CoverageItem.mk lo hi
          ((h + contrib sm ⟨os, c1⟩ ⟨lo, hi, h⟩) + contrib sm ⟨os, c2⟩ ⟨lo, hi, h⟩)
        = CoverageItem.mk lo hi
          (h + contrib sm ⟨os, fun o => c1 o + c2 o⟩ ⟨lo, hi, h⟩)
      rw [contrib_addc, Nat.add_assoc]

theorem add_hit_map_add (m : CoverageMap) (v : String) (sm : SourceMap)
    (os : List Nat) (c1 c2 : Nat → Nat) :
    (m.add_hit_map v sm ⟨os, c1⟩).add_hit_map v sm ⟨os, c2⟩ =
      m.add_hit_map v sm ⟨os, fun o => c1 o + c2 o⟩ := by
  unfold CoverageMap.add_hit_map
  congr 1
  rw [List.map_map]
  apply List.map_congr_left
  intro e _
  by_cases hv : e.1.1 = v
  · simp only [Function.comp_apply, if_pos hv]
    simp [hv, addHits_add]
  · simp [Function.comp, hv]

theorem add_add_closed (m : CoverageMap) (v : String) (cm rm : SourceMap)
    (os : List Nat) (c : Nat → Nat) :
    (m.add_hit_map v cm ⟨os, c⟩).add_hit_map v rm ⟨os, c⟩ =
      { entries := m.entries.map (fun e =>
          if e.1.1 = v then
            (e.1, e.2.map (fun it => { it with hits := it.hits +
              (contrib cm ⟨os, c⟩ it + contrib rm ⟨os, c⟩ it) }))
          else e) } := by
  unfold CoverageMap.add_hit_map
  congr 1
  rw [List.map_map]
  apply List.map_congr_left
  intro e _
  by_cases hv : e.1.1 = v
  · simp [Function.comp, hv]
    rw [addHits_closed, addHits_closed, List.map_map]
    apply List.map_congr_left
    intro it _
    cases it with
  | mk lo hi h =>
      show CoverageItem.mk lo hi
          ((h + contrib cm ⟨os, c⟩ ⟨lo, hi, h⟩) + contrib rm ⟨os, c⟩ ⟨lo, hi, h⟩)
        = CoverageItem.mk lo hi
          (h + (contrib cm ⟨os, c⟩ ⟨lo, hi, h⟩ + contrib rm ⟨os, c⟩ ⟨lo, hi, h⟩))
      rw [Nat.add_assoc]
  · simp [Function.comp, hv]

/-! Helper lemmas about the collect loop. -/

theorem resolveIdentity_resolved (sms : List (ArtifactId × (SourceMap × SourceMap)))
    (hm : HitMap) (ident : Identity) (aid : ArtifactId) (cm rm : SourceMap)
    (H : HitData) (h1 : ident.artifact_id = some aid)
    (h2 : lookupSM sms aid = some (cm, rm))
    (h3 : lookupHM hm ident.address = some H) :
    resolveIdentity sms hm ident = some (aid, ((cm, rm), H)) := by
  simp only [resolveIdentity, h1, h2, h3]

theorem resolveIdentity_unresolved (sms : List (ArtifactId × (SourceMap × SourceMap)))
    (hm : HitMap) (ident : Identity)
    (h : ident.artifact_id = none
       ∨ (∀ aid, ident.artifact_id = some aid → lookupSM sms aid = none)
       ∨ lookupHM hm ident.address = none) :
    resolveIdentity sms hm ident = none := by
  rcases h with h | h | h
  · simp only [resolveIdentity, h]
  · cases ha : ident.artifact_id with
    | none => simp only [resolveIdentity, ha]
    | some aid => simp only [resolveIdentity, ha, h aid ha]
  · cases ha : ident.artifact_id with
    | none => simp only [resolveIdentity, ha]
    | some aid =>
        cases hs : lookupSM sms aid with
        | none => simp only [resolveIdentity, ha, hs]
        | some p => simp only [resolveIdentity, ha, hs, h]

theorem processTrace_cons_resolved (sms : List (ArtifactId × (SourceMap × SourceMap)))
    (hm : HitMap) (ident : Identity) (aid : ArtifactId) (cm rm : SourceMap)
    (H : HitData) (rest : Trace) (m : CoverageMap)
    (h1 : ident.artifact_id = some aid)
    (h2 : lookupSM sms aid = some (cm, rm))
    (h3 : lookupHM hm ident.address = some H) :
    processTrace sms hm (ident :: rest) m =
      processTrace sms hm rest
        ((m.add_hit_map aid.version cm H).add_hit_map aid.version rm H) := by
  unfold processTrace
  rw [List.filterMap_cons,
    resolveIdentity_resolved sms hm ident aid cm rm H h1 h2 h3,
    List.foldl_cons]

theorem processTrace_cons_skip (sms : List (ArtifactId × (SourceMap × SourceMap)))
    (hm : HitMap) (ident : Identity) (rest : Trace) (m : CoverageMap)
    (h : resolveIdentity sms hm ident = none) :
    processTrace sms hm (ident :: rest) m = processTrace sms hm rest m := by
  unfold processTrace
  rw [List.filterMap_cons, h]

theorem processTrace_nil (sms : List (ArtifactId × (SourceMap × SourceMap)))
    (hm : HitMap) (m : CoverageMap) : processTrace sms hm [] m = m := rfl

/-! Helper lemmas about prepare. -/

theorem hasKey_add_source (m : CoverageMap) (path version : String)
    (items : List CoverageItem) (v p : String) (hne : path ≠ p) :
    (m.add_source path version items).hasKey v p = m.hasKey v p := by
  unfold CoverageMap.add_source
  by_cases hk : m.hasKey version path
  · rw [if_pos hk]
  · rw [if_neg hk]
    unfold CoverageMap.hasKey
    rw [List.any_append]
    simp [hne]

theorem prepareVersioned_noitems {A : Type}
    (visit : A → Except String (List CoverageItem)) (path : String)
    (vss : List (VersionedSourceFile A)) (m : CoverageMap)
    (h : ∀ vs ∈ vss, vs.source_file.ast = none
        ∨ ∃ a, vs.source_file.ast = some a ∧ visit a = .ok []) :
    prepareVersioned visit path vss m = .ok m := by
  induction vss with
  | nil => rfl
  | cons vs rest ih =>
      have hrest := fun vs2 h2 => h vs2 (List.mem_cons_of_mem _ h2)
      rcases h vs (List.mem_cons_self _ _) with hna | ⟨a, ha, hv⟩
      · simp only [prepareVersioned, hna]
        exact ih hrest
      · simp only [prepareVersioned, ha, hv, List.isEmpty_nil, if_true]
        exact ih hrest

theorem prepareVersioned_hasKey {A : Type}
    (visit : A → Except String (List CoverageItem)) (path : String)
    (vss : List (VersionedSourceFile A)) (m m2 : CoverageMap) (v p : String)
    (hne : path ≠ p) (h : prepareVersioned visit path vss m = .ok m2) :
    m2.hasKey v p = m.hasKey v p := by
  induction vss generalizing m with
  | nil =>
      cases h
      rfl
  | cons vs rest ih =>
      rw [prepareVersioned] at h
      split at h
      · exact ih m h
      · split at h
        · cases h
        · split at h
          · exact ih m h
          · rw [ih _ h, hasKey_add_source _ _ _ _ _ _ hne]

theorem prepareSources_hasKey {A : Type}
    (visit : A → Except String (List CoverageItem))
    (srcs : List (String × List (VersionedSourceFile A)))
    (m m2 : CoverageMap) (v p : String)
    (h : ∀ vss, (p, vss) ∈ srcs → ∀ vs ∈ vss, vs.source_file.ast = none
        ∨ ∃ a, vs.source_file.ast = some a ∧ visit a = .ok [])
    (hok : prepareSources visit srcs m = .ok m2) :
    m2.hasKey v p = m.hasKey v p := by
  induction srcs generalizing m with
  | nil =>
      cases hok
      rfl
  | cons pv rest ih =>
      obtain ⟨path, vss⟩ := pv
      have hrest := fun vss2 hmem => h vss2 (List.mem_cons_of_mem _ hmem)
      by_cases hp : path = p
      · subst hp
        rw [prepareSources,
          prepareVersioned_noitems visit path vss m
            (h vss (List.mem_cons_self _ _))] at hok
        exact ih m hrest hok
      · rw [prepareSources] at hok
        cases hpv : prepareVersioned visit path vss m with
        | error e =>
            rw [hpv] at hok
            cases hok
        | ok m1 =>
            rw [hpv] at hok
            have hok2 : prepareSources visit rest m1 = .ok m2 := hok
            rw [ih m1 hrest hok2,
              prepareVersioned_hasKey visit path vss m m1 v p hp hpv]

theorem prepareSources_noast {A : Type}
    (visit : A → Except String (List CoverageItem))
    (srcs : List (String × List (VersionedSourceFile A))) (m : CoverageMap)
    (h : ∀ pvss ∈ srcs, ∀ vs ∈ pvss.2, vs.source_file.ast = none) :
    prepareSources visit srcs m = .ok m := by
  induction srcs with
  | nil => rfl
  | cons pv rest ih =>
      obtain ⟨path, vss⟩ := pv
      rw [prepareSources,
        prepareVersioned_noitems visit path vss m
          (fun vs hv => Or.inl (h ⟨path, vss⟩ (List.mem_cons_self _ _) vs hv))]
      exact ih (fun pvss h2 => h pvss (List.mem_cons_of_mem _ h2))

theorem buildSourceMaps_cons_none (pr : ArtifactId × CompactContractBytecode)
    (rest : List (ArtifactId × CompactContractBytecode))
    (h : sourceMapsOf pr.2 = none) :
    buildSourceMaps (pr :: rest) = buildSourceMaps rest := by
  simp [buildSourceMaps, List.filterMap_cons, h]

theorem buildSourceMaps_cons_some (pr : ArtifactId × CompactContractBytecode)
    (rest : List (ArtifactId × CompactContractBytecode))
    (sms : SourceMap × SourceMap) (h : sourceMapsOf pr.2 = some sms) :
    buildSourceMaps (pr :: rest) = (pr.1, sms) :: buildSourceMaps rest := by
  simp [buildSourceMaps, List.filterMap_cons, h]

theorem lookupSM_build_none (artifacts : List (ArtifactId × CompactContractBytecode))
    (aid : ArtifactId)
    (h : ∀ pr ∈ artifacts, pr.1 = aid → sourceMapsOf pr.2 = none) :
    lookupSM (buildSourceMaps artifacts) aid = none := by
  induction artifacts with
  | nil => rfl
  | cons pr rest ih =>
      have hrest := fun pr2 h2 => h pr2 (List.mem_cons_of_mem _ h2)
      cases hsm : sourceMapsOf pr.2 with
      | none =>
          rw [buildSourceMaps_cons_none pr rest hsm]
          exact ih hrest
      | some sms =>
          have hne : pr.1 ≠ aid := by
            intro he
            rw [h pr (List.mem_cons_self _ _) he] at hsm
            cases hsm
          rw [buildSourceMaps_cons_some pr rest sms hsm]
          unfold lookupSM
          rw [List.find?_cons]
          simp only [show (decide ((pr.1, sms).1 = aid)) = false from
            decide_eq_false hne]
          exact ih hrest

/-! Claim theorems. -/

/-- Claim C1, counterexample: the claim states that when the spawned test
thread panics, collect returns a fatal error rather than continuing to
report generation. On the code this is false: the join outcome is bound to
a wildcard and dropped, so with a panicked test thread and the summary
report kind, collect still succeeds and reaches the reporter. -/
theorem C1_counterexample :
    collectFinish JoinOutcome.panicked CoverageReportKind.summary "root"
      (fun _ => Except.ok ()) = Except.ok (ReportTarget.stdout, []) := rfl

/-- Claim C1, amended: the main context joins the test thread but discards
the join outcome, so the result of the final phase of collect is entirely
independent of whether the test-execution context finished or panicked; an
abnormal termination is not surfaced as an error of the pass. -/
theorem C1_join_outcome_discarded (j1 j2 : JoinOutcome)
    (report : CoverageReportKind) (root : String)
    (create : String → Except String Unit) :
    collectFinish j1 report root create = collectFinish j2 report root create := by
  cases report <;> rfl

/-- Claim C2: for a test result carrying a HitMap and an address the
identifier resolves to an artifact with known source maps, the correlation
step applies the hit counts twice — once through the creation source map
and once through the runtime source map — and both applications land in
the coverage map. -/
theorem C2_dual_source_map_application
    (sms : List (ArtifactId × (SourceMap × SourceMap))) (hm : HitMap)
    (ident : Identity) (aid : ArtifactId) (cm rm : SourceMap) (H : HitData)
    (m : CoverageMap) (h1 : ident.artifact_id = some aid)
    (h2 : lookupSM sms aid = some (cm, rm))
    (h3 : lookupHM hm ident.address = some H) :
    processTrace sms hm [ident] m =
      (m.add_hit_map aid.version cm H).add_hit_map aid.version rm H :=
  processTrace_cons_resolved sms hm ident aid cm rm H [] m h1 h2 h3

/-- witness for claim C2 at a concrete input: one resolved address, one
registered source with one item spanning bytes 10 to 20, and a hit map
with 7 hits on offset 2; the item ends with 14 accumulated hits, 7 from
each of the two source maps. -/
theorem C2_witness :
    processTrace [(⟨"Counter", "0.8.13"⟩, ([⟨0, 5, 10, 20⟩], [⟨0, 3, 10, 20⟩]))]
        [(1, ⟨[2], fun _ => 7⟩)] [⟨1, some ⟨"Counter", "0.8.13"⟩⟩]
        ⟨[(("0.8.13", "src/Counter.sol"), [⟨10, 20, 0⟩])]⟩ =
      ((⟨[(("0.8.13", "src/Counter.sol"), [⟨10, 20, 0⟩])]⟩ :
          CoverageMap).add_hit_map "0.8.13" [⟨0, 5, 10, 20⟩]
            ⟨[2], fun _ => 7⟩).add_hit_map "0.8.13" [⟨0, 3, 10, 20⟩]
            ⟨[2], fun _ => 7⟩ :=
  C2_dual_source_map_application
    [(⟨"Counter", "0.8.13"⟩, ([⟨0, 5, 10, 20⟩], [⟨0, 3, 10, 20⟩]))]
    [(1, ⟨[2], fun _ => 7⟩)] ⟨1, some ⟨"Counter", "0.8.13"⟩⟩
    ⟨"Counter", "0.8.13"⟩ [⟨0, 5, 10, 20⟩] [⟨0, 3, 10, 20⟩] ⟨[2], fun _ => 7⟩
    ⟨[(("0.8.13", "src/Counter.sol"), [⟨10, 20, 0⟩])]⟩ rfl rfl rfl

/-- Claim C5: a test result whose coverage field carries no HitMap leaves
the coverage map completely unchanged — its traces are never correlated —
and the collect loop treats this as a normal case, not an error. -/
theorem C5_no_hitmap_unchanged
    (sms : List (ArtifactId × (SourceMap × SourceMap))) (res : TestResult)
    (m : CoverageMap) (h : res.coverage = none) :
    processResult sms res m = m := by
  unfold processResult
  rw [h]

/-- witness for claim C5 at a concrete input: a result with no HitMap but
with a trace containing a resolvable address still leaves the map
untouched. -/
theorem C5_witness :
    processResult [(⟨"Counter", "0.8.13"⟩, ([⟨0, 5, 10, 20⟩], [⟨0, 3, 10, 20⟩]))]
        ⟨none, [[⟨1, some ⟨"Counter", "0.8.13"⟩⟩]]⟩
        ⟨[(("0.8.13", "src/Counter.sol"), [⟨10, 20, 3⟩])]⟩ =
      ⟨[(("0.8.13", "src/Counter.sol"), [⟨10, 20, 3⟩])]⟩ :=
  C5_no_hitmap_unchanged
    [(⟨"Counter", "0.8.13"⟩, ([⟨0, 5, 10, 20⟩], [⟨0, 3, 10, 20⟩]))]
    ⟨none, [[⟨1, some ⟨"Counter", "0.8.13"⟩⟩]]⟩
    ⟨[(("0.8.13", "src/Counter.sol"), [⟨10, 20, 3⟩])]⟩ rfl

/-- Claim C6: an address whose identity carries no artifact id, or whose
artifact id is absent from the source-map table, or whose address is
absent from the HitMap, is skipped by correlation without error and
contributes nothing to the coverage map. -/
theorem C6_unresolved_address_skipped
    (sms : List (ArtifactId × (SourceMap × SourceMap))) (hm : HitMap)
    (ident : Identity) (rest : Trace) (m : CoverageMap)
    (h : ident.artifact_id = none
       ∨ (∀ aid, ident.artifact_id = some aid → lookupSM sms aid = none)
       ∨ lookupHM hm ident.address = none) :
    processTrace sms hm (ident :: rest) m = processTrace sms hm rest m :=
  processTrace_cons_skip sms hm ident rest m
    (resolveIdentity_unresolved sms hm ident h)

/-- witness for claim C6 at a concrete input: an identity the identifier
left unresolved contributes nothing — the map with one registered source
is returned unchanged. -/
theorem C6_witness :
    processTrace [] [(1, ⟨[2], fun _ => 7⟩)] [⟨1, none⟩]
        ⟨[(("0.8.13", "src/Counter.sol"), [⟨10, 20, 0⟩])]⟩ =
      ⟨[(("0.8.13", "src/Counter.sol"), [⟨10, 20, 0⟩])]⟩ :=
  C6_unresolved_address_skipped [] [(1, ⟨[2], fun _ => 7⟩)] ⟨1, none⟩ []
    ⟨[(("0.8.13", "src/Counter.sol"), [⟨10, 20, 0⟩])]⟩ (Or.inl rfl)

/-- Claim C7: the summary and debug report kinds write to the standard
output stream and create no file; the lcov kind creates the fixed-named
file lcov.info at the project root, and when that creation fails the
whole pass fails with the underlying error. -/
theorem C7_report_targets (j : JoinOutcome) (root : String)
    (create : String → Except String Unit) :
    (collectFinish j .summary root create = .ok (.stdout, []))
    ∧ (collectFinish j .debug root create = .ok (.stdout, []))
    ∧ (∀ e, create (root ++ "/lcov.info") = .error e →
        collectFinish j .lcov root create = .error e)
    ∧ (∀ u, create (root ++ "/lcov.info") = .ok u →
        collectFinish j .lcov root create =
          .ok (.file (root ++ "/lcov.info"), [root ++ "/lcov.info"])) := by
  refine ⟨rfl, rfl, ?_, ?_⟩
  · intro e he
    simp only [collectFinish, he]
  · intro u he
    simp only [collectFinish, he]

/-- witness for claim C7 at a concrete input: with a filesystem that
creates the file successfully, the lcov kind writes the file at the
project root. -/
theorem C7_witness :
    collectFinish JoinOutcome.finished CoverageReportKind.lcov "proj"
        (fun _ => Except.ok ()) =
      Except.ok (ReportTarget.file ("proj" ++ "/lcov.info"),
        ["proj" ++ "/lcov.info"]) :=
  (C7_report_targets JoinOutcome.finished "proj" (fun _ => Except.ok ())).2.2.2
    () rfl

/-- Claim C10: whatever optimizer setting the configured project carries,
the project build actually compiles carries a disabled optimizer — the
coverage build unconditionally disables the solc optimizer before
compiling. -/
theorem C10_optimizer_always_disabled {C O : Type}
    (mkProject : C → Except String Project)
    (compile : Project → Except String O) (config : C) (p : Project) (out : O)
    (h : build mkProject compile config = .ok (p, out)) :
    p.solc_config.settings.optimizer.enabled = some false
    ∧ compile p = .ok out := by
  unfold build at h
  split at h
  · cases h
  · split at h
    · cases h
    · rename_i output hcomp
      simp only [Except.ok.injEq, Prod.mk.injEq] at h
      obtain ⟨hp, hout⟩ := h
      subst hp
      subst hout
      exact ⟨rfl, hcomp⟩

/-- witness for claim C10 at a concrete input: a configured project with
the optimizer enabled and 200 runs is compiled with the optimizer
disabled. -/
theorem C10_witness :
    (Project.mk (SolcConfig.mk (Settings.mk (Optimizer.mk (some false)
        (some 200)))) "r").solc_config.settings.optimizer.enabled = some false
    ∧ (fun _ : Project => (Except.ok 0 : Except String Nat))
        (Project.mk (SolcConfig.mk (Settings.mk (Optimizer.mk (some false)
          (some 200)))) "r") = Except.ok 0 :=
  C10_optimizer_always_disabled
    (fun _ => Except.ok (Project.mk (SolcConfig.mk (Settings.mk
      (Optimizer.mk (some true) (some 200)))) "r"))
    (fun _ => Except.ok 0) ()
    (Project.mk (SolcConfig.mk (Settings.mk (Optimizer.mk (some false)
      (some 200)))) "r") 0 rfl

/-- Claim C4: merging hit maps into the coverage map through a fixed
source map is commutative and count-additive — merging H1 then H2 equals
merging H2 then H1, equals merging the single offset-wise sum of H1 and
H2 — and repeated merges reassociate freely, here shown by collapsing a
third merge into the sum as well. -/
theorem C4_merge_comm_additive (m : CoverageMap) (v : String)
    (sm : SourceMap) (os : List Nat) (c1 c2 c3 : Nat → Nat) :
    ((m.add_hit_map v sm ⟨os, c1⟩).add_hit_map v sm ⟨os, c2⟩
        = (m.add_hit_map v sm ⟨os, c2⟩).add_hit_map v sm ⟨os, c1⟩)
    ∧ ((m.add_hit_map v sm ⟨os, c1⟩).add_hit_map v sm ⟨os, c2⟩
        = m.add_hit_map v sm ⟨os, fun o => c1 o + c2 o⟩)
    ∧ (((m.add_hit_map v sm ⟨os, c1⟩).add_hit_map v sm ⟨os, c2⟩).add_hit_map
          v sm ⟨os, c3⟩
        = (m.add_hit_map v sm ⟨os, c1⟩).add_hit_map v sm
            ⟨os, fun o => c2 o + c3 o⟩) := by
  refine ⟨?_, add_hit_map_add m v sm os c1 c2, add_hit_map_add _ v sm os c2 c3⟩
  rw [add_hit_map_add, add_hit_map_add]
  have hc : (fun o => c1 o + c2 o) = (fun o => c2 o + c1 o) := by
    funext o
    exact Nat.add_comm _ _
  rw [hc]

/-- Claim C3: when every versioned source under a path is extracted to
zero coverage items (or has no AST at all), prepare registers no entry
for that path under any compiler version — the file never appears in the
coverage map. -/
theorem C3_zero_item_file_absent {A : Type}
    (visit : A → Except String (List CoverageItem))
    (artifacts : List (ArtifactId × CompactContractBytecode))
    (sources : List (String × List (VersionedSourceFile A)))
    (p v : String) (m : CoverageMap)
    (sms : List (ArtifactId × (SourceMap × SourceMap)))
    (hsrc : ∀ vss, (p, vss) ∈ sources → ∀ vs ∈ vss,
        vs.source_file.ast = none
        ∨ ∃ a, vs.source_file.ast = some a ∧ visit a = .ok [])
    (hok : prepare visit artifacts sources = .ok (m, sms)) :
    m.hasKey v p = false := by
  unfold prepare at hok
  cases hps : prepareSources visit sources { entries := [] } with
  | error e =>
      rw [hps] at hok
      cases hok
  | ok m1 =>
      rw [hps] at hok
      have h2 : (Except.ok (m1, buildSourceMaps artifacts) :
          Except String (CoverageMap × List (ArtifactId × (SourceMap × SourceMap))))
          = .ok (m, sms) := hok
      simp only [Except.ok.injEq, Prod.mk.injEq] at h2
      obtain ⟨hm1, hsms⟩ := h2
      subst hm1
      rw [prepareSources_hasKey visit sources { entries := [] } m1 v p hsrc hps]
      rfl

/-- witness for claim C3 at a concrete input: one source file whose AST
is extracted to zero items is absent from the prepared coverage map. -/
theorem C3_witness :
    CoverageMap.hasKey { entries := [] } "0.8.0" "a.sol" = false :=
  C3_zero_item_file_absent (fun _ : Unit => Except.ok [])
    [] [("a.sol", [⟨"0.8.0", ⟨some ()⟩⟩])] "a.sol" "0.8.0"
    { entries := [] } []
    (by
      intro vss hmem vs hvs
      rw [List.mem_singleton] at hmem
      simp only [Prod.mk.injEq, true_and] at hmem
      subst hmem
      rw [List.mem_singleton] at hvs
      subst hvs
      exact Or.inr ⟨(), rfl, rfl⟩)
    rfl

theorem prepareVersioned_skip_gap {A : Type}
    (visit : A → Except String (List CoverageItem)) (path : String)
    (V1 V2 : List (VersionedSourceFile A)) (vs : VersionedSourceFile A)
    (m : CoverageMap) (h : vs.source_file.ast = none) :
    prepareVersioned visit path (V1 ++ vs :: V2) m =
      prepareVersioned visit path (V1 ++ V2) m := by
  induction V1 generalizing m with
  | nil =>
      simp only [List.nil_append, prepareVersioned, h]
  | cons v rest ih =>
      simp only [List.cons_append, prepareVersioned]
      split
      · exact ih m
      · split
        · rfl
        · split
          · exact ih m
          · exact ih (m.add_source path v.version _)

theorem prepareSources_skip_gap {A : Type}
    (visit : A → Except String (List CoverageItem))
    (S1 S2 : List (String × List (VersionedSourceFile A))) (path : String)
    (V1 V2 : List (VersionedSourceFile A)) (vs : VersionedSourceFile A)
    (m : CoverageMap) (h : vs.source_file.ast = none) :
    prepareSources visit (S1 ++ (path, V1 ++ vs :: V2) :: S2) m =
      prepareSources visit (S1 ++ (path, V1 ++ V2) :: S2) m := by
  induction S1 generalizing m with
  | nil =>
      simp only [List.nil_append, prepareSources]
      rw [prepareVersioned_skip_gap visit path V1 V2 vs m h]
  | cons pv rest ih =>
      obtain ⟨p2, vss2⟩ := pv
      simp only [List.cons_append, prepareSources]
      cases prepareVersioned visit p2 vss2 m with
      | error e => rfl
      | ok m1 => exact ih m1

theorem buildSourceMaps_skip_gap
    (A1 A2 : List (ArtifactId × CompactContractBytecode))
    (pr : ArtifactId × CompactContractBytecode)
    (h : sourceMapsOf pr.2 = none) :
    buildSourceMaps (A1 ++ pr :: A2) = buildSourceMaps (A1 ++ A2) := by
  unfold buildSourceMaps
  rw [List.filterMap_append, List.filterMap_append]
  congr 1
  exact buildSourceMaps_cons_none pr A2 h

/-- Claim C8: an artifact lacking a creation source map, a decodable
source map, or a runtime source map, and a versioned source lacking an
extractable AST, are skipped by prepare without error wherever they sit
in the compile output: the whole result of prepare — source-map table,
coverage map, and success or failure — is identical to that of the same
run with the gap artifact and the gap source removed, whatever the other
artifacts and sources produce. -/
theorem C8_artifact_gaps_skipped {A : Type}
    (visit : A → Except String (List CoverageItem))
    (A1 A2 : List (ArtifactId × CompactContractBytecode))
    (S1 S2 : List (String × List (VersionedSourceFile A)))
    (path : String) (V1 V2 : List (VersionedSourceFile A))
    (pr : ArtifactId × CompactContractBytecode) (vs : VersionedSourceFile A)
    (h1 : sourceMapsOf pr.2 = none) (h2 : vs.source_file.ast = none) :
    prepare visit (A1 ++ pr :: A2) (S1 ++ (path, V1 ++ vs :: V2) :: S2) =
      prepare visit (A1 ++ A2) (S1 ++ (path, V1 ++ V2) :: S2) := by
  simp only [prepare]
  rw [buildSourceMaps_skip_gap A1 A2 pr h1,
    prepareSources_skip_gap visit S1 S2 path V1 V2 vs { entries := [] } h2]

/-- witness for claim C8 at a concrete input: amid a good artifact
carrying both source maps and a versioned source whose AST yields one
item, an artifact with no source maps and an AST-less versioned source
of the same path are skipped — prepare returns exactly the result of the
run without them. -/
theorem C8_witness :
    prepare (fun _ : Unit => Except.ok [⟨0, 10, 0⟩])
        [(⟨"Good", "0.8.0"⟩, ⟨some (.ok [⟨0, 5, 10, 20⟩]),
            some ⟨some ⟨some (.ok [⟨0, 3, 10, 20⟩])⟩⟩⟩),
          (⟨"Dep", "0.8.0"⟩, ⟨none, none⟩)]
        [("a.sol", [⟨"0.8.0", ⟨some ()⟩⟩, ⟨"0.9.0", ⟨none⟩⟩])] =
      prepare (fun _ : Unit => Except.ok [⟨0, 10, 0⟩])
        [(⟨"Good", "0.8.0"⟩, ⟨some (.ok [⟨0, 5, 10, 20⟩]),
            some ⟨some ⟨some (.ok [⟨0, 3, 10, 20⟩])⟩⟩⟩)]
        [("a.sol", [⟨"0.8.0", ⟨some ()⟩⟩])] :=
  C8_artifact_gaps_skipped (fun _ : Unit => Except.ok [⟨0, 10, 0⟩])
    [(⟨"Good", "0.8.0"⟩, ⟨some (.ok [⟨0, 5, 10, 20⟩]),
        some ⟨some ⟨some (.ok [⟨0, 3, 10, 20⟩])⟩⟩⟩)] []
    [] [] "a.sol" [⟨"0.8.0", ⟨some ()⟩⟩] []
    (⟨"Dep", "0.8.0"⟩, ⟨none, none⟩) ⟨"0.9.0", ⟨none⟩⟩ rfl rfl

/-- Claim C9: within one test result the same per-test HitMap is
re-applied once per trace — over k traces each resolving the same
address to the same artifact, every item registered under that compiler
version accumulates k times the creation-map contribution plus k times
the runtime-map contribution (2k applications in total), so hit counts
scale with the number of traces, not with the HitMap alone. -/
theorem C9_hits_scale_with_traces
    (sms : List (ArtifactId × (SourceMap × SourceMap))) (hm : HitMap)
    (ident : Identity) (aid : ArtifactId) (cm rm : SourceMap)
    (os : List Nat) (c : Nat → Nat) (k : Nat) (m : CoverageMap)
    (h1 : ident.artifact_id = some aid)
    (h2 : lookupSM sms aid = some (cm, rm))
    (h3 : lookupHM hm ident.address = some ⟨os, c⟩) :
    processResult sms ⟨some hm, List.replicate k [ident]⟩ m =
      { entries := m.entries.map (fun e =>
          if e.1.1 = aid.version then
            (e.1, e.2.map (fun it => { it with hits := it.hits +
              k * (contrib cm ⟨os, c⟩ it + contrib rm ⟨os, c⟩ it) }))
          else e) } := by
  induction k generalizing m with
  | zero =>
      have hfn : ∀ e ∈ m.entries,
          (if e.1.1 = aid.version then
            (e.1, e.2.map (fun it => { it with hits := it.hits +
              0 * (contrib cm ⟨os, c⟩ it + contrib rm ⟨os, c⟩ it) }))
          else e) = id e := by
        intro e _
        by_cases hv : e.1.1 = aid.version
        · rw [if_pos hv]
          have hitems : e.2.map (fun it => { it with hits := it.hits +
              0 * (contrib cm ⟨os, c⟩ it + contrib rm ⟨os, c⟩ it) }) = e.2 := by
            calc e.2.map (fun it => { it with hits := it.hits +
                  0 * (contrib cm ⟨os, c⟩ it + contrib rm ⟨os, c⟩ it) })
                = e.2.map id :=
                  List.map_congr_left (fun it _ => by
                    rw [Nat.zero_mul, Nat.add_zero]
                    rfl)
              _ = e.2 := List.map_id e.2
          rw [hitems]
          rfl
        · rw [if_neg hv]
          rfl
      show m = _
      rw [List.map_congr_left hfn, List.map_id]
  | succ k ih =>
      have hstep : processResult sms ⟨some hm, List.replicate (k + 1) [ident]⟩ m
          = processResult sms ⟨some hm, List.replicate k [ident]⟩
              ((m.add_hit_map aid.version cm ⟨os, c⟩).add_hit_map aid.version rm
                ⟨os, c⟩) := by
        show (List.replicate (k + 1) [ident]).foldl
            (fun m2 tr => processTrace sms hm tr m2) m = _
        rw [List.replicate_succ, List.foldl_cons]
        show (List.replicate k [ident]).foldl
            (fun m2 tr => processTrace sms hm tr m2)
            (processTrace sms hm [ident] m) = _
        rw [processTrace_cons_resolved sms hm ident aid cm rm ⟨os, c⟩ [] m h1 h2 h3]
        rfl
      rw [hstep, ih, add_add_closed]
      congr 1
      show (m.entries.map (fun e =>
          if e.1.1 = aid.version then
            (e.1, e.2.map (fun it => { it with hits := it.hits +
              (contrib cm ⟨os, c⟩ it + contrib rm ⟨os, c⟩ it) }))
          else e)).map (fun e =>
          if e.1.1 = aid.version then
            (e.1, e.2.map (fun it => { it with hits := it.hits +
              k * (contrib cm ⟨os, c⟩ it + contrib rm ⟨os, c⟩ it) }))
          else e) = _
      rw [List.map_map]
      apply List.map_congr_left
      intro e _
      by_cases hv : e.1.1 = aid.version
      · simp only [Function.comp_apply, if_pos hv]
        rw [List.map_map]
        have hinj : e.2.map ((fun it => { it with hits := it.hits +
              k * (contrib cm ⟨os, c⟩ it + contrib rm ⟨os, c⟩ it) }) ∘
            (fun it => { it with hits := it.hits +
              (contrib cm ⟨os, c⟩ it + contrib rm ⟨os, c⟩ it) })) =
            e.2.map (fun it => { it with hits := it.hits +
              (k + 1) * (contrib cm ⟨os, c⟩ it + contrib rm ⟨os, c⟩ it) }) := by
          apply List.map_congr_left
          intro it _
          cases it with
  | mk lo hi hh =>
      show CoverageItem.mk lo hi
          ((hh + (contrib cm ⟨os, c⟩ ⟨lo, hi, hh⟩ + contrib rm ⟨os, c⟩ ⟨lo, hi, hh⟩))
            + k * (contrib cm ⟨os, c⟩ ⟨lo, hi, hh⟩ + contrib rm ⟨os, c⟩ ⟨lo, hi, hh⟩))
        = CoverageItem.mk lo hi
          (hh + (k + 1) * (contrib cm ⟨os, c⟩ ⟨lo, hi, hh⟩
            + contrib rm ⟨os, c⟩ ⟨lo, hi, hh⟩))
      congr 1
      ring
        rw [hinj]
      · simp [Function.comp, hv]

/-- witness for claim C9 at a concrete input: one test result with two
traces, each resolving the same address to the same artifact, applies
the per-test HitMap twice per source map — every item under that version
gains 2 times the summed creation and runtime contributions. -/
theorem C9_witness :
    processResult [(⟨"Counter", "0.8.13"⟩, ([⟨0, 5, 10, 20⟩], [⟨0, 3, 10, 20⟩]))]
        ⟨some [(1, ⟨[2], fun _ => 7⟩)],
          List.replicate 2 [⟨1, some ⟨"Counter", "0.8.13"⟩⟩]⟩
        ⟨[(("0.8.13", "src/Counter.sol"), [⟨10, 20, 0⟩])]⟩ =
      { entries := [(("0.8.13", "src/Counter.sol"), [⟨10, 20, 0⟩])].map (fun e =>
          if e.1.1 = (⟨"Counter", "0.8.13"⟩ : ArtifactId).version then
            (e.1, e.2.map (fun it => { it with hits := it.hits +
              2 * (contrib [⟨0, 5, 10, 20⟩] ⟨[2], fun _ => 7⟩ it
                + contrib [⟨0, 3, 10, 20⟩] ⟨[2], fun _ => 7⟩ it) }))
          else e) } :=
  C9_hits_scale_with_traces
    [(⟨"Counter", "0.8.13"⟩, ([⟨0, 5, 10, 20⟩], [⟨0, 3, 10, 20⟩]))]
    [(1, ⟨[2], fun _ => 7⟩)] ⟨1, some ⟨"Counter", "0.8.13"⟩⟩
    ⟨"Counter", "0.8.13"⟩ [⟨0, 5, 10, 20⟩] [⟨0, 3, 10, 20⟩] [2] (fun _ => 7) 2
    ⟨[(("0.8.13", "src/Counter.sol"), [⟨10, 20, 0⟩])]⟩ rfl rfl rfl

end ForgeCoverage
